import Mathlib

/-!
Verification of the trustcheck scoring engine against its specification.

The definitions below are shallow embeddings of the TypeScript source:
JavaScript numbers are modelled as rationals (all arithmetic in the scoring
paths is exact decimal arithmetic), JavaScript strings as Lean strings or
lists of characters, and nullable values as Option.
-/

namespace TrustCheck

/-- Rounding as performed by the JavaScript builtin Math.round:
half-integers round toward positive infinity. -/
def jsRound (q : ℚ) : ℤ := ⌊q + 1/2⌋

/-- From src/lib/trustAnalysis.ts (clampScore): Math.max(0, Math.min(100, Math.round(score))). -/
def clampScore (score : ℚ) : ℤ := max 0 (min 100 (jsRound score))

/-- The trustSignals object of the AI result type in src/lib/geminiAnalysis.ts (part_009). -/
structure TrustSignals where
  positive : List String
  negative : List String
  neutral : List String
deriving Repr, DecidableEq

/-- AIAnalysisResult from part_009. The confidenceLevel is kept as a raw string
because the JSON validation never checks it, so at runtime it can hold any string. -/
structure AIAnalysisResult where
  overallAssessment : String
  trustSignals : TrustSignals
  riskFactors : List String
  recommendations : List String
  confidenceLevel : String
  category : String
  summary : String
  aiScore : ℚ
deriving Repr, DecidableEq

/-- mergeScores from part_009 lines 161-170. -/
def mergeScores (heuristicScore : ℚ) (aiResult : Option AIAnalysisResult) : ℚ :=
  match aiResult with
  | none => heuristicScore
  | some a =>
    if a.confidenceLevel = "high" then a.aiScore
    else
      let weightAI : ℚ := if a.confidenceLevel = "medium" then 0.75 else 0.5
      let merged : ℤ := jsRound (heuristicScore * (1 - weightAI) + a.aiScore * weightAI)
      max 0 (min 100 (merged : ℚ))

/-- The final score computation of analyzeWebsite, src/lib/trustAnalysis.ts line 480:
clampScore(mergeScores(score, aiResult)). -/
def fusedScore (score : ℚ) (aiResult : Option AIAnalysisResult) : ℤ :=
  clampScore (mergeScores score aiResult)

/-- A model of JavaScript JSON values, as produced by JSON.parse. -/
inductive Json where
  | null : Json
  | bool : Bool → Json
  | num : ℚ → Json
  | str : String → Json
  | arr : List Json → Json
  | obj : List (String × Json) → Json
deriving Repr

/-- Property access on a parsed JSON value: defined only on objects, absent
otherwise (modelling the undefined result of property access in JavaScript). -/
def getField : Json → String → Option Json
  | .obj fields, name => (fields.find? (fun p => p.1 == name)).map (fun p => p.2)
  | _, _ => none

/-- JavaScript truthiness of a possibly absent value; undefined and null are falsy,
as are zero, the empty string and false. -/
def jsTruthy : Option Json → Bool
  | none => false
  | some .null => false
  | some (.bool b) => b
  | some (.num q) => decide (q ≠ 0)
  | some (.str s) => s != ""
  | some (.arr _) => true
  | some (.obj _) => true

/-- typeof x === "string" on a field access result. -/
def isStr : Option Json → Bool
  | some (.str _) => true
  | _ => false

/-- typeof x === "number" on a field access result. -/
def isNum : Option Json → Bool
  | some (.num _) => true
  | _ => false

/-- Array.isArray on a field access result. -/
def isArr : Option Json → Bool
  | some (.arr _) => true
  | _ => false

/-- The structural validation of the parsed AI response, part_009 lines 134-139:
a string overallAssessment, a numeric aiScore, a truthy trustSignals and an
array-typed trustSignals.positive are required. -/
def validateAIShape (j : Json) : Bool :=
  isStr (getField j "overallAssessment") &&
  isNum (getField j "aiScore") &&
  jsTruthy (getField j "trustSignals") &&
  isArr ((getField j "trustSignals").bind (fun t => getField t "positive"))

/-- Duck-typed field read of a string, with a default for absent or differently
typed values (the TypeScript cast performs no conversion; non-string runtime
values in these never-inspected positions are modelled by the default). -/
def jsStringD (o : Option Json) (d : String) : String :=
  match o with
  | some (.str s) => s
  | _ => d

/-- Duck-typed field read of an array of strings. -/
def jsStrList (o : Option Json) : List String :=
  match o with
  | some (.arr xs) => xs.filterMap (fun x => match x with | .str s => some s | _ => none)
  | _ => []

/-- The duck-typed cast of the parsed JSON into the AIAnalysisResult shape
(part_009 line 131). Only overallAssessment, aiScore and trustSignals.positive
were validated; every other field is read as found. -/
def extractAIResult (j : Json) : AIAnalysisResult where
  overallAssessment := jsStringD (getField j "overallAssessment") ""
  trustSignals :=
    { positive := jsStrList ((getField j "trustSignals").bind (fun t => getField t "positive"))
      negative := jsStrList ((getField j "trustSignals").bind (fun t => getField t "negative"))
      neutral := jsStrList ((getField j "trustSignals").bind (fun t => getField t "neutral")) }
  riskFactors := jsStrList (getField j "riskFactors")
  recommendations := jsStrList (getField j "recommendations")
  confidenceLevel := jsStringD (getField j "confidenceLevel") ""
  category := jsStringD (getField j "category") ""
  summary := jsStringD (getField j "summary") ""
  aiScore := match getField j "aiScore" with | some (.num q) => q | _ => 0

/-- WebsiteData from part_009: the evidence bundle handed to the AI client. -/
structure WebsiteData where
  url : String
  hostname : String
  protocol : String
  htmlContent : Option String
  domainAgeDays : Option ℤ
  isWellKnown : Bool
  httpStatus : Option ℤ
  redirectChain : List String
  contentType : Option String
  headers : List (String × String)
  pagesCrawled : Option ℤ
deriving Repr

/-- JavaScript falsiness of a nullable string: null and the empty string. -/
def jsFalsyStr : Option String → Bool
  | none => true
  | some s => s == ""

/-- Whitespace characters removed by the JavaScript String.prototype.trim
(restricted to the ASCII whitespace characters). -/
def isJsSpace (c : Char) : Bool :=
  c == ' ' || c == '\t' || c == '\n' || c == '\r' || c == '\x0b' || c == '\x0c'

/-- String.prototype.trim on a list of characters. -/
def trimList (l : List Char) : List Char :=
  ((l.dropWhile isJsSpace).reverse.dropWhile isJsSpace).reverse

/-- String.prototype.trim. -/
def strTrim (s : String) : String := ⟨trimList s.data⟩

/-- Removal of an optional Markdown code-fence wrapper, part_009 lines 120-129:
drop a leading fence marker (with or without the json tag), drop a trailing
fence marker, and trim the remainder. -/
def stripCodeFences (text : String) : String :=
  let t := text.data
  let t1 := if "```json".data.isPrefixOf t then t.drop 7
            else if "```".data.isPrefixOf t then t.drop 3
            else t
  let t2 := if "```".data.isSuffixOf t1 then t1.take (t1.length - 3) else t1
  ⟨trimList t2⟩

/-- Clamp of the validated aiScore and the low-evidence guardrail,
part_009 lines 144-152: scores are clamped to [0, 100]; when the site is not
well-known and the HTML is unavailable or the domain age unknown, the score is
further capped at 65 and a high confidence is downgraded to medium. -/
def applyGuardrails (data : WebsiteData) (r : AIAnalysisResult) : AIAnalysisResult :=
  let clamped : ℚ := ((max 0 (min 100 (jsRound r.aiScore)) : ℤ) : ℚ)
  let limitedData := !data.isWellKnown && (jsFalsyStr data.htmlContent || data.domainAgeDays.isNone)
  if limitedData then
    { r with aiScore := min clamped 65,
             confidenceLevel := if r.confidenceLevel = "high" then "medium" else r.confidenceLevel }
  else
    { r with aiScore := clamped }

/-- analyzeWithAI from part_009, with the external effects exposed as parameters:
apiKey is the GEMINI_API_KEY environment variable, parseJson models JSON.parse
(none models a parse exception), and responseText models the text of the model
response (none models a network or API failure, or an absent text). -/
def analyzeWithAI (apiKey : Option String) (parseJson : String → Option Json)
    (data : WebsiteData) (responseText : Option String) : Option AIAnalysisResult :=
  match apiKey with
  | none => none
  | some _ =>
    match responseText with
    | none => none
    | some raw =>
      let text := strTrim raw
      if text == "" then none
      else
        match parseJson (stripCodeFences text) with
        | none => none
        | some j =>
          if validateAIShape j then some (applyGuardrails data (extractAIResult j))
          else none

/-- Concrete evidence bundle used by witnesses: a site that is not well-known,
with no fetched HTML and unknown domain age. -/
def demoWebsiteData : WebsiteData where
  url := "https://shop.example/"
  hostname := "shop.example"
  protocol := "https:"
  htmlContent := none
  domainAgeDays := none
  isWellKnown := false
  httpStatus := some 200
  redirectChain := []
  contentType := some "text/html"
  headers := []
  pagesCrawled := none

/-- Concrete parsed AI response used by witnesses: shape-valid, with a high
confidence and an aiScore of 90. -/
def demoAIJson : Json :=
  Json.obj
    [("overallAssessment", Json.str "Looks fine"),
     ("aiScore", Json.num 90),
     ("confidenceLevel", Json.str "high"),
     ("trustSignals", Json.obj [("positive", Json.arr [Json.str "https"])])]

/-- ASCII lowercasing of one character, as the URL parser and
String.prototype.toLowerCase apply it to hostnames and schemes. -/
def lowerChar (c : Char) : Char :=
  if 65 ≤ c.toNat ∧ c.toNat ≤ 90 then Char.ofNat (c.toNat + 32) else c

/-- Characters allowed after the first one by the scheme test of part_001
line 154, the regular expression class of letters, digits, plus, dot, dash. -/
def isSchemeTailChar (c : Char) : Bool :=
  c.isAlpha || c.isDigit || c == '+' || c == '.' || c == '-'

/-- Characters terminating the authority component of a hierarchical URL. -/
def isAuthorityEnd (c : Char) : Bool :=
  c == '/' || c == '?' || c == '#' || c == ':' || c == '@'

/-- The components of a parsed URL. -/
structure UrlModel where
  scheme : List Char
  host : List Char
  path : List Char
  query : Option (List Char)
  fragment : Option (List Char)
deriving Repr, DecidableEq

/-- Scheme recognition: a leading alphabetic character, scheme characters, and
a colon followed by two slashes; returns the scheme spelling and the remainder. -/
def splitScheme (s : List Char) : Option (List Char × List Char) :=
  match s.takeWhile isSchemeTailChar, s.dropWhile isSchemeTailChar with
  | c :: sch, ':' :: '/' :: '/' :: rest => if c.isAlpha then some (c :: sch, rest) else none
  | _, _ => none

/-- Authority recognition: the host runs until a delimiter; a following colon
(explicit port) or at sign (userinfo) is outside the modelled fragment. -/
def splitAuthority (rest2 : List Char) : Option (List Char × List Char) :=
  let auth := rest2.takeWhile (fun d => !isAuthorityEnd d)
  let rest3 := rest2.dropWhile (fun d => !isAuthorityEnd d)
  if auth.isEmpty then none
  else if rest3.head? == some ':' || rest3.head? == some '@' then none
  else some (auth, rest3)

/-- Path recognition: the path runs until a question mark or hash. -/
def splitPath (rest3 : List Char) : List Char × List Char :=
  (rest3.takeWhile (fun d => !(d == '?' || d == '#')),
   rest3.dropWhile (fun d => !(d == '?' || d == '#')))

/-- Query and fragment recognition on the remainder after the path. -/
def splitQueryFragment (rest4 : List Char) : Option (List Char) × Option (List Char) :=
  match rest4 with
  | [] => (none, none)
  | '?' :: qrest =>
    (some (qrest.takeWhile (fun d => !(d == '#'))),
     match qrest.dropWhile (fun d => !(d == '#')) with
     | [] => none
     | _ :: frest => some frest)
  | _ :: frest => (none, some frest)

/-- Model of the WHATWG URL parser (the JavaScript URL constructor) restricted
to hierarchical URLs without userinfo, explicit port or whitespace; inputs
outside this fragment are not modelled and fail. The scheme and host are
lowercased and an empty path is canonicalized to a single slash, as the real
parser does for http(s) URLs. -/
def parseUrl (s : List Char) : Option UrlModel :=
  if s.any isJsSpace then none
  else
    match splitScheme s with
    | none => none
    | some (sch, rest2) =>
      match splitAuthority rest2 with
      | none => none
      | some (auth, rest3) =>
        let p := splitPath rest3
        let qf := splitQueryFragment p.2
        some ⟨sch.map lowerChar, auth.map lowerChar,
              if p.1.isEmpty then ['/'] else p.1, qf.1, qf.2⟩

/-- URL serialization (the toString of the URL class) on the modelled fragment. -/
def serializeUrl (u : UrlModel) : List Char :=
  u.scheme ++ [':', '/', '/'] ++ u.host ++ u.path ++
  (match u.query with | none => [] | some q => '?' :: q) ++
  (match u.fragment with | none => [] | some f => '#' :: f)

/-- The scheme-prefix test of part_001 line 154, the regular expression
anchored at the start: one letter, then scheme characters, then a colon. -/
def hasExplicitScheme (l : List Char) : Bool :=
  match l with
  | [] => false
  | c :: rest => c.isAlpha && ((rest.dropWhile isSchemeTailChar).head? == some ':')

/-- The input actually parsed by normalizeUrlInput: the trimmed input, with
https:// prepended when no scheme prefix is present (part_001 lines 151-156). -/
def schemedInput (raw : List Char) : List Char :=
  let input := trimList raw
  if hasExplicitScheme input then input else "https://".data ++ input

/-- normalizeUrlInput from part_001 lines 150-175: trim, default the scheme to
https, parse, require an http(s) scheme and a dotted hostname, drop the
fragment, and serialize. -/
def normalizeUrlInput (raw : List Char) : Except String (List Char) :=
  let input := trimList raw
  if input.isEmpty then .error "Please enter a website URL."
  else
    match parseUrl (schemedInput raw) with
    | none => .error "That URL does not look quite right. Please try again."
    | some url =>
      if url.scheme ≠ "https".data ∧ url.scheme ≠ "http".data then
        .error "Please use an http(s) website URL."
      else if url.host.isEmpty || !url.host.contains '.' then
        .error "Please enter a valid website domain."
      else
        .ok (serializeUrl { url with fragment := none })

/-- makeCacheKey from part_008 lines 27-29: lowercased hostname, two colons and
the cache version tag. -/
def makeCacheKey (hostname : List Char) : List Char :=
  hostname.map lowerChar ++ "::v4".data

/-- The inline URL validation of the analyze route handler, part_008 lines
366-384: trim, parse without a scheme default, require an http(s) scheme and a
dotted hostname, drop the fragment; on success the handler proceeds with the
normalized URL and cache key, otherwise it returns a 4xx without analyzing. -/
def postValidateUrl (raw : List Char) : Except String (List Char × List Char) :=
  let url := trimList raw
  if url.isEmpty then .error "Please provide a URL."
  else
    match parseUrl url with
    | none => .error "That URL does not look quite right. Please try again."
    | some parsed =>
      if parsed.scheme ≠ "https".data ∧ parsed.scheme ≠ "http".data then
        .error "Please use an http(s) website URL."
      else if parsed.host.isEmpty || !parsed.host.contains '.' then
        .error "Please enter a valid website domain."
      else
        .ok (serializeUrl { parsed with fragment := none }, makeCacheKey parsed.host)

/-- normalizeUrl from src/lib/trustAnalysis.ts lines 81-88: parse, require an
http(s) scheme, drop the fragment, serialize. It performs no hostname check;
it only ever runs on already validated input. -/
def normalizeUrl (rawUrl : List Char) : Except String (List Char) :=
  match parseUrl rawUrl with
  | none => .error "Invalid URL"
  | some url =>
    if url.scheme ≠ "https".data ∧ url.scheme ≠ "http".data then
      .error "Please use an http(s) website URL."
    else
      .ok (serializeUrl { url with fragment := none })

/-- The parse of https://localhost, used by the claim C4 witness. -/
def localhostUrl : UrlModel :=
  ⟨"https".data, "localhost".data, "/".data, none, none⟩

/-- Canonicity of parsed URL components: the shape every parseUrl result has,
and exactly what reparsing a serialized URL relies on. -/
def UrlCanon (u : UrlModel) : Prop :=
  u.host ≠ [] ∧
  (∀ c ∈ u.host, isAuthorityEnd c = false ∧ isJsSpace c = false ∧ lowerChar c = c) ∧
  u.path ≠ [] ∧ u.path.head? = some '/' ∧
  (∀ c ∈ u.path, (c == '?' || c == '#') = false ∧ isJsSpace c = false) ∧
  (∀ q, u.query = some q → ∀ c ∈ q, (c == '#') = false ∧ isJsSpace c = false)

/-- ExplainabilityItem from src/lib/trustAnalysis.ts. The verdict is one of
good, warn, bad, unknown; it is kept as a string because the flagged-sites
code compares it by string equality. -/
structure ExplainabilityItem where
  key : String
  label : String
  verdict : String
  detail : String
deriving Repr, DecidableEq

/-- The tls member of AgentSignals (src/lib/trustAnalysis.ts). -/
structure TlsInfo where
  supported : Bool
  issuer : Option String
  subject : Option String
  notAfter : Option String
  daysToExpiry : Option ℤ
deriving Repr, DecidableEq

/-- The fetch member of AgentSignals. -/
structure FetchInfo where
  finalUrl : String
  httpStatus : Option ℤ
  contentType : Option String
  redirectChain : List String
  headers : List (String × String)
  htmlAvailable : Bool
  fetchNote : Option String
deriving Repr, DecidableEq

/-- The crawl member of AgentSignals; the per-page list is not consumed by the
flagged-sites aggregator and is omitted from the model. -/
structure CrawlInfo where
  pagesRequested : ℤ
  pagesFetched : ℤ
deriving Repr, DecidableEq

/-- The aiJudgment member of AgentSignals. -/
structure AIJudgment where
  legitimacyScore : ℚ
  confidence : String
  verdict : String
  category : String
  detectedIssues : List String
  positiveSignals : List String
  platform : String
  productLegitimacy : String
  businessIdentity : String
  summary : String
  recommendation : String
deriving Repr, DecidableEq

/-- AgentSignals from src/lib/trustAnalysis.ts. -/
structure AgentSignals where
  agent : String
  domainAgeDays : Option ℤ
  externalReviews : Option String
  warnings : Option (List String)
  timingsMs : List (String × ℤ)
  tls : Option TlsInfo
  fetch : Option FetchInfo
  crawl : Option CrawlInfo
  aiJudgment : Option AIJudgment
deriving Repr, DecidableEq

/-- AnalysisResponse from src/lib/trustAnalysis.ts. -/
structure AnalysisResponse where
  normalizedUrl : List Char
  score : ℚ
  status : String
  explainability : List ExplainabilityItem
  cached : Bool
  analyzedAt : String
  aiAnalysis : Option AIAnalysisResult
  agentSignals : Option AgentSignals
deriving Repr, DecidableEq

/-- isFlaggedAnalysis from src/lib/flaggedSites.ts lines 52-58: flag when the
score is below 45, the status is high risk, or the agent AI verdict is
suspicious or likely deceptive. -/
def isFlaggedAnalysis (r : AnalysisResponse) : Bool :=
  let scoreFlag := decide (r.score < 45)
  let statusFlag := r.status == "High Risk Indicators Detected"
  let verdict := (r.agentSignals.bind (fun s => s.aiJudgment)).map (fun j => j.verdict)
  let aiFlag := verdict == some "suspicious" || verdict == some "likely_deceptive"
  scoreFlag || statusFlag || aiFlag

/-- A finding entry of a flagged-site record. -/
structure FlaggedFinding where
  label : String
  verdict : String
  detail : String
deriving Repr, DecidableEq

/-- The evidence snapshot of a flagged-site record. -/
structure FlaggedEvidence where
  domainAgeDays : Option ℤ
  tlsSupported : Option Bool
  tlsIssuer : Option String
  redirectChain : List String
  pagesFetched : Option ℤ
  warnings : List String
deriving Repr, DecidableEq

/-- FlaggedSiteRecord from src/lib/flaggedSites.ts. -/
structure FlaggedSiteRecord where
  hostname : List Char
  normalizedUrl : List Char
  firstObservedAtMs : ℤ
  lastObservedAtMs : ℤ
  lastAnalysisAtMs : ℤ
  score : ℤ
  status : String
  aiVerdict : Option String
  aiConfidence : Option String
  summary : Option String
  issues : List String
  findings : List FlaggedFinding
  evidence : FlaggedEvidence
  timesObserved : ℤ
deriving Repr, DecidableEq

/-- safeHostname from flaggedSites.ts lines 60-66: the lowercased hostname of
the URL, none when parsing fails. -/
def safeHostname (url : List Char) : Option (List Char) :=
  (parseUrl url).map (fun u => u.host.map lowerChar)

/-- The loop of compactList: trim each value, skip empties, stop once the
output has reached the limit (the element that reaches it is kept). -/
def compactListAux (values : List String) (count : ℕ) (limit : ℕ) : List String :=
  match values with
  | [] => []
  | v :: rest =>
    let s := strTrim v
    if s == "" then compactListAux rest count limit
    else if count + 1 ≥ limit then [s]
    else s :: compactListAux rest (count + 1) limit

/-- compactList from flaggedSites.ts lines 68-78; the aggregator only ever
passes arrays of strings, which is what this model takes. -/
def compactList (values : List String) (limit : ℕ) : List String :=
  compactListAux values 0 limit

/-- clamp from flaggedSites.ts lines 48-50. -/
def flaggedClamp (n mn mx : ℤ) : ℤ := max mn (min mx n)

/-- True when the optional list is present and nonempty, the truthiness of the
JavaScript expression list?.length. -/
def optListNonempty (o : Option (List String)) : Bool :=
  match o with
  | some (_ :: _) => true
  | _ => false

/-- buildFlaggedDoc from flaggedSites.ts lines 80-137. dateParse models the
JavaScript Date.parse builtin, none standing for NaN. -/
def buildFlaggedDoc (dateParse : String → Option ℤ) (analysis : AnalysisResponse)
    (observedAtMs : ℤ) : Option FlaggedSiteRecord :=
  match safeHostname analysis.normalizedUrl with
  | none => none
  | some hostname =>
    let judgment := analysis.agentSignals.bind (fun s => s.aiJudgment)
    let aiVerdict := judgment.map (fun j => j.verdict)
    let aiConfidence := (judgment.map (fun j => j.confidence)).orElse
      (fun _ => analysis.aiAnalysis.map (fun a => a.confidenceLevel))
    let fromAgent := judgment.map (fun j => j.detectedIssues)
    let fromAi := analysis.aiAnalysis.map (fun a => a.riskFactors)
    let fromNeg := analysis.aiAnalysis.map (fun a => a.trustSignals.negative)
    let issues :=
      if optListNonempty fromAgent then compactList (fromAgent.getD []) 10
      else if optListNonempty fromAi then compactList (fromAi.getD []) 10
      else if optListNonempty fromNeg then compactList (fromNeg.getD []) 10
      else []
    let findings := ((analysis.explainability.filter
      (fun i => i.verdict == "bad" || i.verdict == "warn")).take 8).map
      (fun i => FlaggedFinding.mk i.label i.verdict i.detail)
    let summary := (judgment.map (fun j => j.summary)).orElse
      (fun _ => (analysis.aiAnalysis.map (fun a => a.summary)).orElse
        (fun _ => analysis.aiAnalysis.map (fun a => a.overallAssessment)))
    let lastAnalysisAtMs :=
      match dateParse analysis.analyzedAt with
      | some t => t
      | none => observedAtMs
    some
      { hostname := hostname
        normalizedUrl := analysis.normalizedUrl
        firstObservedAtMs := observedAtMs
        lastObservedAtMs := observedAtMs
        lastAnalysisAtMs := lastAnalysisAtMs
        score := flaggedClamp (jsRound analysis.score) 0 100
        status := analysis.status
        aiVerdict := aiVerdict
        aiConfidence := aiConfidence
        summary := summary
        issues := issues
        findings := findings
        evidence :=
          { domainAgeDays := analysis.agentSignals.bind (fun s => s.domainAgeDays)
            tlsSupported := (analysis.agentSignals.bind (fun s => s.tls)).map
              (fun t => t.supported)
            tlsIssuer := (analysis.agentSignals.bind (fun s => s.tls)).bind
              (fun t => t.issuer)
            redirectChain := ((analysis.agentSignals.bind (fun s => s.fetch)).map
              (fun f => f.redirectChain)).getD []
            pagesFetched := (analysis.agentSignals.bind (fun s => s.crawl)).map
              (fun c => c.pagesFetched)
            warnings := (analysis.agentSignals.bind (fun s => s.warnings)).getD [] }
        timesObserved := 1 }

/-- Lookup in the in-memory fallback map of flagged sites, keyed by hostname. -/
def storeGet (store : List (List Char × FlaggedSiteRecord)) (k : List Char) :
    Option FlaggedSiteRecord :=
  (store.find? (fun p => p.1 == k)).map (fun p => p.2)

/-- Insert-or-replace in the in-memory fallback map. -/
def storeSet (store : List (List Char × FlaggedSiteRecord)) (k : List Char)
    (v : FlaggedSiteRecord) : List (List Char × FlaggedSiteRecord) :=
  (k, v) :: store.filter (fun p => !(p.1 == k))

/-- upsertFlaggedFromAnalysis from flaggedSites.ts lines 154-180, on the
in-memory fallback store (the durable path implements the same semantics with
a MongoDB upsert): on first sighting insert the built document, on a repeat
sighting replace it while keeping the original firstObservedAtMs and
incrementing timesObserved. -/
def upsertFlaggedFromAnalysis (dateParse : String → Option ℤ)
    (store : List (List Char × FlaggedSiteRecord)) (analysis : AnalysisResponse)
    (observedAtMs : ℤ) : List (List Char × FlaggedSiteRecord) :=
  match buildFlaggedDoc dateParse analysis observedAtMs with
  | none => store
  | some doc =>
    match storeGet store doc.hostname with
    | some prev =>
      storeSet store doc.hostname
        { doc with firstObservedAtMs := prev.firstObservedAtMs,
                   timesObserved := prev.timesObserved + 1 }
    | none => storeSet store doc.hostname doc

/-- An observation as the analyze handler performs it (part_008 lines 537-539):
the upsert runs only when the analysis is flag-worthy. -/
def observeAnalysis (dateParse : String → Option ℤ)
    (store : List (List Char × FlaggedSiteRecord)) (analysis : AnalysisResponse)
    (observedAtMs : ℤ) : List (List Char × FlaggedSiteRecord) :=
  if isFlaggedAnalysis analysis then
    upsertFlaggedFromAnalysis dateParse store analysis observedAtMs
  else store

/-- A Date.parse stand-in that always fails, used by witnesses. -/
def dateParseNone : String → Option ℤ := fun _ => none

/-- Flag-worthy analyses of the same hostname used by witnesses. -/
def demoFlagged1 : AnalysisResponse :=
  ⟨"https://bad-shop.example/".data, 20, "High Risk Indicators Detected", [], false,
    "2026-01-01T00:00:00.000Z", none, none⟩

/-- A second flag-worthy analysis of the same hostname. -/
def demoFlagged2 : AnalysisResponse :=
  ⟨"https://bad-shop.example/".data, 30, "High Risk Indicators Detected", [], false,
    "2026-01-02T00:00:00.000Z", none, none⟩

/-- A token bucket, src/lib/ipRateLimit.ts lines 12-16. -/
structure Bucket where
  tokens : ℚ
  lastRefillMs : ℤ
  lastSeenMs : ℤ
deriving Repr, DecidableEq

/-- RateLimitResult from ipRateLimit.ts lines 61-63: the success and rejection
arms of the union, the latter carrying retryAfterSeconds. -/
inductive RateLimitResult where
  | ok (limit : ℤ) (remaining : ℤ)
  | rejected (limit : ℤ) (remaining : ℤ) (retryAfterSeconds : ℤ)
deriving Repr, DecidableEq

/-- The key of a bucket, ipRateLimit.ts line 77: scope and client IP, with a
shared fallback key for unresolvable clients. -/
def bucketKey (scope : String) (ip : Option String) (fallbackKey : Option String) : String :=
  match ip with
  | some i => scope ++ ":" ++ i
  | none => scope ++ ":" ++ (fallbackKey.getD "unknown")

/-- Bucket lookup in the process-wide bucket table. -/
def bucketGet (store : List (String × Bucket)) (k : String) : Option Bucket :=
  (store.find? (fun p => p.1 == k)).map (fun p => p.2)

/-- Bucket insert-or-replace in the bucket table. -/
def bucketSet (store : List (String × Bucket)) (k : String) (v : Bucket) :
    List (String × Bucket) :=
  (k, v) :: store.filter (fun p => !(p.1 == k))

/-- pruneIfNeeded from ipRateLimit.ts lines 65-73: once the table holds at
least 1500 buckets, drop those idle for thirty minutes. -/
def pruneIfNeeded (store : List (String × Bucket)) (now : ℤ) : List (String × Bucket) :=
  if store.length < 1500 then store
  else store.filter (fun p => !(decide (p.2.lastSeenMs < now - 30 * 60 * 1000)))

/-- checkIpRateLimit from ipRateLimit.ts lines 75-117, with the bucket table
and the clock passed explicitly: refill proportionally to elapsed time capped
at capacity, then deduct one token or reject with a retry-after hint of the
shortfall divided by the refill rate, rounded up and floored at one second. -/
def checkIpRateLimit (store : List (String × Bucket)) (key : String) (now : ℤ)
    (capacity : ℚ) (refillPerSecond : ℚ) : RateLimitResult × List (String × Bucket) :=
  let store := pruneIfNeeded store now
  let cap : ℤ := max 1 ⌊capacity⌋
  let refill : ℚ := max 0.001 refillPerSecond
  match bucketGet store key with
  | none =>
    (.ok cap (cap - 1), bucketSet store key ⟨(cap : ℚ) - 1, now, now⟩)
  | some existing =>
    let elapsedMs : ℤ := max 0 (now - existing.lastRefillMs)
    let refillAmt : ℚ := ((elapsedMs : ℚ) / 1000) * refill
    let tokens : ℚ := min (cap : ℚ) (existing.tokens + refillAmt)
    if tokens < 1 then
      let missing := 1 - tokens
      (.rejected cap 0 (max 1 ⌈missing / refill⌉), bucketSet store key ⟨tokens, now, now⟩)
    else
      (.ok cap (max 0 ⌊tokens - 1⌋), bucketSet store key ⟨tokens - 1, now, now⟩)

/-- The bucket key of the burst scenario: the analyze scope and one client IP. -/
def burstKey : String := bucketKey "analyze" (some "203.0.113.7") none

/-- Five checks for one scope and client at the same instant against a bucket
of capacity 4 refilling at 0.1 tokens per second, starting from an empty table. -/
def burstResults : List RateLimitResult :=
  let r1 := checkIpRateLimit [] burstKey 0 4 0.1
  let r2 := checkIpRateLimit r1.2 burstKey 0 4 0.1
  let r3 := checkIpRateLimit r2.2 burstKey 0 4 0.1
  let r4 := checkIpRateLimit r3.2 burstKey 0 4 0.1
  let r5 := checkIpRateLimit r4.2 burstKey 0 4 0.1
  [r1.1, r2.1, r3.1, r4.1, r5.1]

/-- An HTTP response as the homepage fetcher sees it; header names are stored
lowercase, as the Fetch API normalizes them. -/
structure HttpResponse where
  status : ℤ
  headers : List (String × String)
  bodyText : String
deriving Repr, DecidableEq

/-- Headers.get on a response. -/
def headerGet (headers : List (String × String)) (name : String) : Option String :=
  (headers.find? (fun p => p.1 == name)).map (fun p => p.2)

/-- The result shape of fetchHomepageSignals, trustAnalysis.ts lines 184-191. -/
structure HomepageSignals where
  finalUrl : List Char
  htmlText : Option String
  httpStatus : Option ℤ
  contentType : Option String
  headers : List (String × String)
  redirectChain : List (List Char)
deriving Repr, DecidableEq

/-- toLowerCase on a string (ASCII). -/
def lowerStr (s : String) : String := ⟨s.data.map lowerChar⟩

/-- String.prototype.includes: a needle occurs at some position of the hay. -/
def strIncludes (needle : List Char) : List Char → Bool
  | [] => needle.isEmpty
  | c :: t => needle.isPrefixOf (c :: t) || strIncludes needle t

/-- The header-capture step of each fetch iteration, trustAnalysis.ts lines
215-219: each allow-listed header present on the response overwrites the
captured value. -/
def captureHeaders (acc : List (String × String)) (res : HttpResponse) :
    List (String × String) :=
  ["server", "x-powered-by", "strict-transport-security", "content-security-policy",
    "x-frame-options"].foldl
    (fun acc name =>
      match headerGet res.headers name with
      | some v => (name, v) :: acc.filter (fun p => !(p.1 == name))
      | none => acc) acc

/-- The redirect-following loop of fetchHomepageSignals, trustAnalysis.ts lines
199-239, with the network exposed as an oracle: fetches gives the response of
the n-th fetch (the error arm models a thrown network failure: timeout, DNS,
TLS), and resolveUrl models new URL(location, currentUrl).toString(). A 3xx
response with a Location header recurses with one fewer hop; otherwise a
non-HTML content type returns without a body, and an HTML one returns the text
capped at 500000 characters. A thrown failure aborts the whole loop. -/
def fetchLoop (fetches : ℕ → Except Unit HttpResponse)
    (resolveUrl : String → List Char → List Char) :
    ℕ → ℕ → List Char → List (List Char) → Option ℤ → Option String →
    List (String × String) → Except Unit HomepageSignals
  | 0, _, currentUrl, chain, status, ctype, headers =>
    .ok ⟨currentUrl, none, status, ctype, headers, chain⟩
  | maxRedirects + 1, step, currentUrl, chain, _, _, headers =>
    match fetches step with
    | .error e => .error e
    | .ok res =>
      let httpStatus := some res.status
      let contentType := headerGet res.headers "content-type"
      let headers := captureHeaders headers res
      match (if 300 ≤ res.status ∧ res.status < 400
             then headerGet res.headers "location" else none) with
      | some location =>
        fetchLoop fetches resolveUrl maxRedirects (step + 1)
          (resolveUrl location currentUrl) (chain ++ [currentUrl])
          httpStatus contentType headers
      | none =>
        let htmlOk := match contentType with
          | some ct => strIncludes "text/html".data (lowerStr ct).data
          | none => false
        if !htmlOk then
          .ok ⟨currentUrl, none, httpStatus, contentType, headers, chain⟩
        else
          .ok ⟨currentUrl, some ⟨res.bodyText.data.take 500000⟩, httpStatus,
            contentType, headers, chain⟩

/-- fetchHomepageSignals from trustAnalysis.ts lines 184-243: run the loop with
five hops; the surrounding try/catch turns any thrown failure into the
fetch-unavailable result with null status, content type, headers and an empty
redirect chain. -/
def fetchHomepageSignals (fetches : ℕ → Except Unit HttpResponse)
    (resolveUrl : String → List Char → List Char) (normalizedUrl : List Char) :
    HomepageSignals :=
  match fetchLoop fetches resolveUrl 5 0 normalizedUrl [] none none [] with
  | .ok r => r
  | .error _ => ⟨normalizedUrl, none, none, none, [], []⟩

/-- A network oracle used by witnesses: the first fetch redirects, the second
one fails. -/
def demoFetches : ℕ → Except Unit HttpResponse :=
  fun n => if n = 0
    then .ok ⟨301, [("location", "https://next.example/")], ""⟩
    else .error ()

/-- A trivial relative-URL resolver used by witnesses. -/
def demoResolve : String → List Char → List Char := fun loc _ => loc.data

/-- A cache operation performed by the analyze handler, recorded for
instrumentation: a cache lookup, a cache write, or a fresh analysis. -/
inductive CacheOp where
  | cacheRead
  | cacheWrite
  | freshAnalysis
deriving Repr, DecidableEq

/-- AnalysisCacheRecord from src/lib/trustAnalysis.ts lines 71-75: a response
plus the cache key and timestamps. -/
structure AnalysisCacheRecord where
  response : AnalysisResponse
  cacheKey : List Char
  analyzedAtMs : ℤ
  expireAtMs : ℤ
deriving Repr, DecidableEq

/-- ENABLE_CACHE from part_008 line 23: the environment variable must equal the
exact string true. -/
def enableCacheFlag (envVar : Option String) : Bool := envVar == some "true"

/-- The inputs of one analyze request, with the external effects resolved:
the ENABLE_CACHE environment variable, the force flag of the request body,
what getCached would return for the cache key (none on miss or expiry), the
outcome of the optional remote-agent delegation, and the local analyzeWebsite
result used when no agent is configured. -/
structure AnalyzeEnv where
  enableCacheEnv : Option String
  force : Bool
  cacheEntry : Option AnalysisCacheRecord
  agentResult : Option AnalysisResponse
  localResult : AnalysisResponse
deriving Repr

/-- The fresh-analysis tail of the handler (part_008 lines 426-541): agent
delegation when available, otherwise the local pipeline; either way the
result is cached only when the cache is enabled and returned with
cached set to false. -/
def analyzeFresh (env : AnalyzeEnv) (enabled : Bool) (ops : List CacheOp) :
    AnalysisResponse × List CacheOp :=
  match env.agentResult with
  | some agent =>
    ({ agent with cached := false },
      ops ++ [CacheOp.freshAnalysis] ++ (if enabled then [CacheOp.cacheWrite] else []))
  | none =>
    ({ env.localResult with cached := false },
      ops ++ [CacheOp.freshAnalysis] ++ (if enabled then [CacheOp.cacheWrite] else []))

/-- The cache-relevant control flow of the analyze handler POST, part_008
lines 396-541, instrumented with the cache operations it performs: the cache
is read only when force is false and the cache is enabled, a hit is returned
with cached true, and every other path performs a fresh analysis. Screenshot
capture and flagged-site persistence do not touch the cache gate and are
omitted. -/
def analyzePOST (env : AnalyzeEnv) : AnalysisResponse × List CacheOp :=
  let enabled := enableCacheFlag env.enableCacheEnv
  if !env.force && enabled then
    match env.cacheEntry with
    | some rec => ({ rec.response with cached := true }, [CacheOp.cacheRead])
    | none => analyzeFresh env enabled [CacheOp.cacheRead]
  else
    analyzeFresh env enabled []

/-- A request environment used by witnesses: the cache flag unset while a live
cache entry exists and force is false. -/
def demoCacheEnv : AnalyzeEnv :=
  ⟨none, false, some ⟨demoFlagged1, "bad-shop.example::v4".data, 0, 86400000⟩,
    none, demoFlagged2⟩

end TrustCheck

-- All definitions appear above this line; everything below is a theorem.

namespace TrustCheck

theorem jsRound_intCast (m : ℤ) : jsRound (m : ℚ) = m := by
  unfold jsRound
  rw [Int.floor_int_add]
  have h2 : ⌊(1 : ℚ)/2⌋ = 0 := by
    rw [Int.floor_eq_zero_iff]
    constructor <;> norm_num
  omega

theorem clampScore_intCast (m : ℤ) : clampScore (m : ℚ) = max 0 (min 100 m) := by
  unfold clampScore
  rw [jsRound_intCast]

theorem clampScore_clamp_int (m : ℤ) :
    clampScore ((max 0 (min 100 m) : ℤ) : ℚ) = max 0 (min 100 m) := by
  rw [clampScore_intCast]
  omega

/-- Claim C1: for every heuristic score and every present AI result with an integral
aiScore in the range zero to one hundred (as analyzeWithAI guarantees), a high
confidenceLevel makes the fused score equal the AI score, a medium one makes it the
clamp of round(0.75 * aiScore + 0.25 * heuristic), a low one the clamp of
round(0.5 * aiScore + 0.5 * heuristic), and the final score is always in [0, 100]. -/
theorem fusedScore_fusion_cases (h : ℚ) (a : AIAnalysisResult) (n : ℤ)
    (hs : a.aiScore = (n : ℚ)) (h0 : 0 ≤ n) (h1 : n ≤ 100) :
    (a.confidenceLevel = "high" → fusedScore h (some a) = n) ∧
    (a.confidenceLevel = "medium" →
      fusedScore h (some a) = max 0 (min 100 (jsRound (0.75 * a.aiScore + 0.25 * h)))) ∧
    (a.confidenceLevel = "low" →
      fusedScore h (some a) = max 0 (min 100 (jsRound (0.5 * a.aiScore + 0.5 * h)))) ∧
    0 ≤ fusedScore h (some a) ∧ fusedScore h (some a) ≤ 100 := by
  refine ⟨?_, ?_, ?_, ?_⟩
  · intro hc
    have hm : mergeScores h (some a) = a.aiScore := by
      simp [mergeScores, hc]
    rw [fusedScore, hm, hs, clampScore_intCast]
    omega
  · intro hc
    have hm : mergeScores h (some a)
        = ((max 0 (min 100 (jsRound (0.75 * a.aiScore + 0.25 * h))) : ℤ) : ℚ) := by
      simp only [mergeScores, hc, if_true, if_false]
      rw [show h * (1 - (0.75 : ℚ)) + a.aiScore * 0.75 = 0.75 * a.aiScore + 0.25 * h by ring]
      push_cast
      rfl
    rw [fusedScore, hm, clampScore_intCast]
    omega
  · intro hc
    have hm : mergeScores h (some a)
        = ((max 0 (min 100 (jsRound (0.5 * a.aiScore + 0.5 * h))) : ℤ) : ℚ) := by
      simp only [mergeScores, hc]
      rw [if_neg (show ¬ ("low" : String) = "high" from by decide)]
      rw [if_neg (show ¬ ("low" : String) = "medium" from by decide)]
      rw [show h * (1 - (0.5 : ℚ)) + a.aiScore * 0.5 = 0.5 * a.aiScore + 0.5 * h by ring]
      push_cast
      rfl
    rw [fusedScore, hm, clampScore_intCast]
    omega
  · constructor
    · exact le_max_left _ _
    · unfold fusedScore clampScore
      omega

/-- Witness for claim C1 at a concrete input: an AI result with high confidence and
aiScore 80 fused with heuristic score 10 yields exactly 80. -/
theorem fusedScore_fusion_cases_witness :
    let a : AIAnalysisResult :=
      { overallAssessment := "ok", trustSignals := ⟨[], [], []⟩, riskFactors := [],
        recommendations := [], confidenceLevel := "high", category := "corporate",
        summary := "ok", aiScore := ((80 : ℤ) : ℚ) }
    a.aiScore = ((80 : ℤ) : ℚ) ∧ (0 : ℤ) ≤ 80 ∧ (80 : ℤ) ≤ 100 ∧
      (a.confidenceLevel = "high" → fusedScore 10 (some a) = 80) := by
  intro a
  exact ⟨rfl, by decide, by decide,
    (fusedScore_fusion_cases 10 a 80 rfl (by decide) (by decide)).1⟩

/-- Claim C2: when the AI result is unavailable (null) — in particular when the
API credential is missing, the call fails, or the output is malformed — the
final analysis score is exactly the clamped heuristic score; no blending occurs. -/
theorem fusedScore_ai_null :
    (∀ (parseJson : String → Option Json) (data : WebsiteData) (text : Option String),
      analyzeWithAI none parseJson data text = none) ∧
    (∀ h : ℚ, fusedScore h none = clampScore h) :=
  ⟨fun _ _ _ => rfl, fun _ => rfl⟩

theorem analyzeWithAI_some_shape (apiKey : Option String) (parseJson : String → Option Json)
    (data : WebsiteData) (text : Option String) (r : AIAnalysisResult)
    (hres : analyzeWithAI apiKey parseJson data text = some r) :
    ∃ j, validateAIShape j = true ∧ r = applyGuardrails data (extractAIResult j) := by
  cases apiKey with
  | none => exact absurd hres (by simp [analyzeWithAI])
  | some k =>
    cases text with
    | none => exact absurd hres (by simp [analyzeWithAI])
    | some raw =>
      simp only [analyzeWithAI] at hres
      split at hres
      · exact absurd hres (by simp)
      · split at hres
        · exact absurd hres (by simp)
        · rename_i j hj
          split at hres
          · rename_i hval
            exact ⟨j, hval, (Option.some.inj hres).symm⟩
          · exact absurd hres (by simp)

theorem applyGuardrails_limited (data : WebsiteData) (r : AIAnalysisResult)
    (hwk : data.isWellKnown = false)
    (hlim : data.htmlContent = none ∨ data.domainAgeDays = none) :
    (applyGuardrails data r).aiScore ≤ 65 ∧
    (applyGuardrails data r).confidenceLevel ≠ "high" ∧
    (r.confidenceLevel = "high" → (applyGuardrails data r).confidenceLevel = "medium") ∧
    (r.confidenceLevel ≠ "high" →
      (applyGuardrails data r).confidenceLevel = r.confidenceLevel) := by
  have hcond : (!data.isWellKnown &&
      (jsFalsyStr data.htmlContent || data.domainAgeDays.isNone)) = true := by
    rw [hwk]
    rcases hlim with h | h <;> simp [h, jsFalsyStr]
  simp only [applyGuardrails, hcond, if_true]
  refine ⟨min_le_right _ _, ?_, ?_, ?_⟩
  · by_cases hc : r.confidenceLevel = "high"
    · simp [hc]
    · simp [hc]
  · intro hc
    simp [hc]
  · intro hc
    simp [hc]

/-- Claim C3: every AI judgment returned for a subject that is not well-known and
has no HTML or unknown domain age carries an aiScore of at most 65 and a
confidenceLevel that is never high; it is the guardrail image of the parsed
response, under which a high confidenceLevel becomes exactly medium and any
other confidenceLevel is left unchanged. -/
theorem analyzeWithAI_guardrail (apiKey : Option String) (parseJson : String → Option Json)
    (data : WebsiteData) (text : Option String) (r : AIAnalysisResult)
    (hres : analyzeWithAI apiKey parseJson data text = some r)
    (hwk : data.isWellKnown = false)
    (hlim : data.htmlContent = none ∨ data.domainAgeDays = none) :
    r.aiScore ≤ 65 ∧ r.confidenceLevel ≠ "high" ∧
    ∃ j, validateAIShape j = true ∧ r = applyGuardrails data (extractAIResult j) ∧
      ((extractAIResult j).confidenceLevel = "high" → r.confidenceLevel = "medium") ∧
      ((extractAIResult j).confidenceLevel ≠ "high" →
        r.confidenceLevel = (extractAIResult j).confidenceLevel) := by
  obtain ⟨j, hv, rfl⟩ := analyzeWithAI_some_shape apiKey parseJson data text r hres
  obtain ⟨h65, hnh, hdown, hkeep⟩ := applyGuardrails_limited data (extractAIResult j) hwk hlim
  exact ⟨h65, hnh, j, hv, rfl, hdown, hkeep⟩

/-- Witness for claim C3: on the concrete low-evidence input whose parsed
response carries a high confidence, the AI client returns a result whose score
is capped at 65 and whose confidenceLevel has been downgraded to exactly
medium. -/
theorem analyzeWithAI_guardrail_witness :
    analyzeWithAI (some "key") (fun _ => some demoAIJson) demoWebsiteData (some "resp")
      = some (applyGuardrails demoWebsiteData (extractAIResult demoAIJson)) ∧
    demoWebsiteData.isWellKnown = false ∧
    (demoWebsiteData.htmlContent = none ∨ demoWebsiteData.domainAgeDays = none) ∧
    ((applyGuardrails demoWebsiteData (extractAIResult demoAIJson)).aiScore ≤ 65 ∧
     (applyGuardrails demoWebsiteData (extractAIResult demoAIJson)).confidenceLevel
        ≠ "high" ∧
     ∃ j, validateAIShape j = true ∧
       applyGuardrails demoWebsiteData (extractAIResult demoAIJson)
         = applyGuardrails demoWebsiteData (extractAIResult j) ∧
       ((extractAIResult j).confidenceLevel = "high" →
         (applyGuardrails demoWebsiteData (extractAIResult demoAIJson)).confidenceLevel
           = "medium") ∧
       ((extractAIResult j).confidenceLevel ≠ "high" →
         (applyGuardrails demoWebsiteData (extractAIResult demoAIJson)).confidenceLevel
           = (extractAIResult j).confidenceLevel)) ∧
    (extractAIResult demoAIJson).confidenceLevel = "high" ∧
    (applyGuardrails demoWebsiteData (extractAIResult demoAIJson)).confidenceLevel
      = "medium" := by
  refine ⟨rfl, rfl, Or.inl rfl, ?_, rfl, rfl⟩
  exact analyzeWithAI_guardrail (some "key") (fun _ => some demoAIJson) demoWebsiteData
    (some "resp") _ rfl rfl (Or.inl rfl)

theorem isStr_iff (o : Option Json) : isStr o = true ↔ ∃ s, o = some (Json.str s) := by
  cases o with
  | none => simp [isStr]
  | some v => cases v <;> simp [isStr]

theorem isNum_iff (o : Option Json) : isNum o = true ↔ ∃ q, o = some (Json.num q) := by
  cases o with
  | none => simp [isNum]
  | some v => cases v <;> simp [isNum]

theorem isArr_iff (o : Option Json) : isArr o = true ↔ ∃ xs, o = some (Json.arr xs) := by
  cases o with
  | none => simp [isArr]
  | some v => cases v <;> simp [isArr]

/-- Claim C5: AI-output validation is all-or-nothing. Whenever the fence-stripped
response fails to parse, or parses to a value that fails the shape validation,
the client returns null and no field of the response is used; and the shape
validation demands exactly a string overallAssessment, a numeric aiScore, and a
truthy trustSignals whose positive member is an array. -/
theorem analyzeWithAI_all_or_nothing (apiKey : Option String)
    (parseJson : String → Option Json) (data : WebsiteData) (raw : String) :
    ((∀ j, parseJson (stripCodeFences (strTrim raw)) = some j → validateAIShape j = false) →
      analyzeWithAI apiKey parseJson data (some raw) = none) ∧
    (∀ j : Json, validateAIShape j = true ↔
      ((∃ s, getField j "overallAssessment" = some (Json.str s)) ∧
       (∃ q, getField j "aiScore" = some (Json.num q)) ∧
       jsTruthy (getField j "trustSignals") = true ∧
       (∃ xs, (getField j "trustSignals").bind (fun t => getField t "positive")
          = some (Json.arr xs)))) := by
  constructor
  · intro hbad
    cases apiKey with
    | none => rfl
    | some k =>
      simp only [analyzeWithAI]
      split
      · rfl
      · cases hp : parseJson (stripCodeFences (strTrim raw)) with
        | none => rfl
        | some j => simp [hbad j hp]
  · intro j
    unfold validateAIShape
    simp only [Bool.and_eq_true, isStr_iff, isNum_iff, isArr_iff]
    tauto

/-- Witness for claim C5: a response that does not parse as JSON yields null, and
a bare number fails the shape validation. -/
theorem analyzeWithAI_all_or_nothing_witness :
    analyzeWithAI (some "key") (fun _ => none) demoWebsiteData (some "not json") = none ∧
    validateAIShape (Json.num 5) = false := by
  refine ⟨?_, rfl⟩
  exact (analyzeWithAI_all_or_nothing (some "key") (fun _ => none) demoWebsiteData
    "not json").1 (fun j h => Option.noConfusion h)

/-- Claim C4: whenever the hostname of the parsed input lacks a dot, both the
client-side normalizeUrlInput and the analyze route validation fail with a
validation error (so no analysis is performed). -/
theorem normalization_rejects_dotless (raw : List Char) (url : UrlModel)
    (hdot : url.host.contains '.' = false) :
    (parseUrl (schemedInput raw) = some url →
      ∃ msg, normalizeUrlInput raw = Except.error msg) ∧
    (parseUrl (trimList raw) = some url →
      ∃ msg, postValidateUrl raw = Except.error msg) := by
  constructor
  · intro hp
    by_cases h1 : (trimList raw).isEmpty
    · exact ⟨"Please enter a website URL.", by simp [normalizeUrlInput, h1]⟩
    · by_cases h2 : url.scheme ≠ "https".data ∧ url.scheme ≠ "http".data
      · exact ⟨"Please use an http(s) website URL.",
          by simp [normalizeUrlInput, hp, h1, h2]⟩
      · have hmem : '.' ∉ url.host := by simpa using hdot
        exact ⟨"Please enter a valid website domain.",
          by simp [normalizeUrlInput, hp, h1, h2, hmem]⟩
  · intro hp
    by_cases h1 : (trimList raw).isEmpty
    · exact ⟨"Please provide a URL.", by simp [postValidateUrl, h1]⟩
    · by_cases h2 : url.scheme ≠ "https".data ∧ url.scheme ≠ "http".data
      · exact ⟨"Please use an http(s) website URL.",
          by simp [postValidateUrl, hp, h1, h2]⟩
      · have hmem : '.' ∉ url.host := by simpa using hdot
        exact ⟨"Please enter a valid website domain.",
          by simp [postValidateUrl, hp, h1, h2, hmem]⟩

/-- Witness for claim C4: the concrete input https://localhost parses to a
dotless hostname and is rejected by both validators. -/
theorem normalization_rejects_dotless_witness :
    parseUrl (schemedInput "https://localhost".data) = some localhostUrl ∧
    localhostUrl.host.contains '.' = false ∧
    (∃ msg, normalizeUrlInput "https://localhost".data = Except.error msg) ∧
    (∃ msg, postValidateUrl "https://localhost".data = Except.error msg) := by
  have hp : parseUrl (schemedInput "https://localhost".data) = some localhostUrl := by decide
  have hp2 : parseUrl (trimList "https://localhost".data) = some localhostUrl := by decide
  have hdot : localhostUrl.host.contains '.' = false := by decide
  exact ⟨hp, hdot,
    (normalization_rejects_dotless "https://localhost".data localhostUrl hdot).1 hp,
    (normalization_rejects_dotless "https://localhost".data localhostUrl hdot).2 hp2⟩

theorem lowerChar_toNat_of_upper (c : Char) (h : 65 ≤ c.toNat ∧ c.toNat ≤ 90) :
    (lowerChar c).toNat = c.toNat + 32 := by
  unfold lowerChar
  rw [if_pos h]
  obtain ⟨h1, h2⟩ := h
  generalize hg : c.toNat = n at h1 h2 ⊢
  interval_cases n <;> decide

theorem lowerChar_cases (c : Char) :
    lowerChar c = c ∨ (97 ≤ (lowerChar c).toNat ∧ (lowerChar c).toNat ≤ 122) := by
  by_cases h : 65 ≤ c.toNat ∧ c.toNat ≤ 90
  · right
    rw [lowerChar_toNat_of_upper c h]
    omega
  · left
    exact if_neg h

theorem lowerChar_idem (c : Char) : lowerChar (lowerChar c) = lowerChar c := by
  rcases lowerChar_cases c with h | h
  · rw [h]
    exact h
  · apply if_neg
    omega

theorem lowerChar_ne_of_small (c d : Char) (hd : d.toNat < 97 ∨ 122 < d.toNat)
    (h : c ≠ d) : lowerChar c ≠ d := by
  rcases lowerChar_cases c with hc | hc
  · rw [hc]
    exact h
  · intro he
    rw [he] at hc
    omega

theorem isJsSpace_lowerChar (c : Char) (h : isJsSpace c = false) :
    isJsSpace (lowerChar c) = false := by
  unfold isJsSpace at h ⊢
  simp only [Bool.or_eq_false_iff, beq_eq_false_iff_ne] at h ⊢
  obtain ⟨⟨⟨⟨⟨h1, h2⟩, h3⟩, h4⟩, h5⟩, h6⟩ := h
  exact ⟨⟨⟨⟨⟨lowerChar_ne_of_small c ' ' (by decide) h1,
    lowerChar_ne_of_small c '\t' (by decide) h2⟩,
    lowerChar_ne_of_small c '\n' (by decide) h3⟩,
    lowerChar_ne_of_small c '\r' (by decide) h4⟩,
    lowerChar_ne_of_small c '\x0b' (by decide) h5⟩,
    lowerChar_ne_of_small c '\x0c' (by decide) h6⟩

theorem isAuthorityEnd_lowerChar (c : Char) (h : isAuthorityEnd c = false) :
    isAuthorityEnd (lowerChar c) = false := by
  unfold isAuthorityEnd at h ⊢
  simp only [Bool.or_eq_false_iff, beq_eq_false_iff_ne] at h ⊢
  obtain ⟨⟨⟨⟨h1, h2⟩, h3⟩, h4⟩, h5⟩ := h
  exact ⟨⟨⟨⟨lowerChar_ne_of_small c '/' (by decide) h1,
    lowerChar_ne_of_small c '?' (by decide) h2⟩,
    lowerChar_ne_of_small c '#' (by decide) h3⟩,
    lowerChar_ne_of_small c ':' (by decide) h4⟩,
    lowerChar_ne_of_small c '@' (by decide) h5⟩

theorem dropWhile_head_false (p : Char → Bool) (l t : List Char) (c : Char)
    (h : l.dropWhile p = c :: t) : p c = false := by
  induction l with
  | nil => simp at h
  | cons a l ih =>
    rw [List.dropWhile_cons] at h
    by_cases hp : p a = true
    · rw [if_pos hp] at h
      exact ih h
    · rw [if_neg hp] at h
      cases h
      simpa using hp

theorem dropWhile_eq_self_of_all (p : Char → Bool) (l : List Char)
    (h : ∀ c ∈ l, p c = false) : l.dropWhile p = l := by
  cases l with
  | nil => rfl
  | cons a t =>
    rw [List.dropWhile_cons, if_neg]
    simp [h a (by simp)]

theorem trimList_eq_self (l : List Char) (h : ∀ c ∈ l, isJsSpace c = false) :
    trimList l = l := by
  unfold trimList
  rw [dropWhile_eq_self_of_all _ _ h]
  rw [dropWhile_eq_self_of_all _ _ (by simpa using h)]
  exact l.reverse_reverse

theorem map_lower_fixpoints (l : List Char) (h : ∀ c ∈ l, lowerChar c = c) :
    l.map lowerChar = l := by
  induction l with
  | nil => rfl
  | cons a t ih =>
    simp only [List.map_cons, h a (by simp)]
    rw [ih (fun c hc => h c (by simp [hc]))]

theorem splitScheme_eq (s sch rest2 : List Char)
    (h : splitScheme s = some (sch, rest2)) :
    sch = s.takeWhile isSchemeTailChar ∧
    s.dropWhile isSchemeTailChar = ':' :: '/' :: '/' :: rest2 := by
  unfold splitScheme at h
  split at h
  · rename_i c sch' rest heq1 heq2
    split at h
    · cases h
      exact ⟨heq1.symm, heq2⟩
    · exact absurd h (by simp)
  · exact absurd h (by simp)

theorem splitAuthority_eq (r2 auth rest3 : List Char)
    (h : splitAuthority r2 = some (auth, rest3)) :
    auth = r2.takeWhile (fun d => !isAuthorityEnd d) ∧
    rest3 = r2.dropWhile (fun d => !isAuthorityEnd d) ∧
    auth ≠ [] ∧ rest3.head? ≠ some ':' ∧ rest3.head? ≠ some '@' := by
  simp only [splitAuthority] at h
  split at h
  · exact absurd h (by simp)
  · split at h
    · exact absurd h (by simp)
    · rename_i hne hhead
      cases h
      simp only [Bool.or_eq_true, beq_iff_eq] at hhead
      push_neg at hhead
      refine ⟨rfl, rfl, by simpa [List.isEmpty_iff] using hne, hhead.1, hhead.2⟩

theorem parseUrl_some_eq (s : List Char) (u : UrlModel) (h : parseUrl s = some u) :
    ∃ sch rest2 auth rest3,
      s.any isJsSpace = false ∧
      splitScheme s = some (sch, rest2) ∧
      splitAuthority rest2 = some (auth, rest3) ∧
      u = ⟨sch.map lowerChar, auth.map lowerChar,
        if (splitPath rest3).1.isEmpty then ['/'] else (splitPath rest3).1,
        (splitQueryFragment (splitPath rest3).2).1,
        (splitQueryFragment (splitPath rest3).2).2⟩ := by
  unfold parseUrl at h
  split at h
  · exact absurd h (by simp)
  · rename_i hws
    split at h
    · exact absurd h (by simp)
    · rename_i sch rest2 hsch
      split at h
      · exact absurd h (by simp)
      · rename_i auth rest3 hauth
        cases h
        exact ⟨sch, rest2, auth, rest3, by simpa using hws, by simpa using hsch,
          by simpa using hauth, rfl⟩

theorem splitQueryFragment_query_some (rest4 q : List Char)
    (h : (splitQueryFragment rest4).1 = some q) :
    ∃ qrest, rest4 = '?' :: qrest ∧ q = qrest.takeWhile (fun d => !(d == '#')) := by
  unfold splitQueryFragment at h
  split at h
  · exact absurd h (by simp)
  · rename_i qrest
    refine ⟨qrest, rfl, ?_⟩
    simpa using h.symm
  · exact absurd h (by simp)

theorem parseUrl_canon (s : List Char) (u : UrlModel) (h : parseUrl s = some u) :
    UrlCanon u := by
  obtain ⟨sch, rest2, auth, rest3, hws, hsch, hauth, hu⟩ := parseUrl_some_eq s u h
  obtain ⟨hschtake, hschdrop⟩ := splitScheme_eq s sch rest2 hsch
  obtain ⟨hauthtake, hauthdrop, hauthne, hnc, hna⟩ := splitAuthority_eq rest2 auth rest3 hauth
  have hwsall : ∀ c ∈ s, isJsSpace c = false := by
    intro c hc
    have := (List.any_eq_false.mp hws) c hc
    simpa using this
  have hmem2 : ∀ c ∈ rest2, c ∈ s := by
    intro c hc
    have hcd : c ∈ s.dropWhile isSchemeTailChar := by
      rw [hschdrop]
      simp [hc]
    exact (List.dropWhile_sublist isSchemeTailChar).mem hcd
  have hmem3 : ∀ c ∈ rest3, c ∈ rest2 := by
    intro c hc
    rw [hauthdrop] at hc
    exact (List.dropWhile_sublist _).mem hc
  have hauthmem : ∀ c ∈ auth, c ∈ rest2 := by
    intro c hc
    rw [hauthtake] at hc
    exact (List.takeWhile_sublist _).mem hc
  have hauthend : ∀ c ∈ auth, isAuthorityEnd c = false := by
    intro c hc
    rw [hauthtake] at hc
    have := List.mem_takeWhile_imp hc
    simpa using this
  have hpathsub : ∀ c ∈ (splitPath rest3).1, c ∈ rest3 := by
    intro c hc
    exact (List.takeWhile_sublist _).mem hc
  have hpathpred : ∀ c ∈ (splitPath rest3).1, (c == '?' || c == '#') = false := by
    intro c hc
    have := List.mem_takeWhile_imp hc
    simpa using this
  subst hu
  refine ⟨?_, ?_, ?_, ?_, ?_, ?_⟩
  · simpa using hauthne
  · intro c hc
    simp only [List.mem_map] at hc
    obtain ⟨a, ha, rfl⟩ := hc
    exact ⟨isAuthorityEnd_lowerChar a (hauthend a ha),
      isJsSpace_lowerChar a (hwsall a (hmem2 a (hauthmem a ha))),
      lowerChar_idem a⟩
  · by_cases hemp : (splitPath rest3).1.isEmpty
    · simp [hemp]
    · simp only [hemp, if_false]
      simpa [List.isEmpty_iff] using hemp
  · by_cases hemp : (splitPath rest3).1.isEmpty
    · simp [hemp]
    · rw [if_neg hemp]
      obtain ⟨c, t, hr3⟩ : ∃ c t, rest3 = c :: t := by
        cases hr : rest3 with
        | nil =>
          rw [hr] at hemp
          simp [splitPath] at hemp
        | cons c t => exact ⟨c, t, rfl⟩
      have hcend : isAuthorityEnd c = true := by
        have := dropWhile_head_false _ rest2 t c (hauthdrop.symm.trans hr3)
        simpa using this
      have hpr : (splitPath rest3).1 = List.takeWhile (fun d => !(d == '?' || d == '#')) (c :: t) := by
        rw [hr3]
        rfl
      rw [List.takeWhile_cons] at hpr
      by_cases hpc : (!(c == '?' || c == '#')) = true
      · rw [if_pos hpc] at hpr
        rw [hpr]
        have hc1 : c ≠ ':' := by
          intro hcc
          apply hnc
          rw [hr3, hcc]
          rfl
        have hc2 : c ≠ '@' := by
          intro hcc
          apply hna
          rw [hr3, hcc]
          rfl
        have hcs : c = '/' := by
          simp only [isAuthorityEnd, Bool.or_eq_true, beq_iff_eq] at hcend
          simp only [Bool.not_eq_true', Bool.or_eq_false_iff, beq_eq_false_iff_ne] at hpc
          tauto
        rw [hcs]
        rfl
      · rw [if_neg hpc] at hpr
        rw [hpr] at hemp
        simp at hemp
  · intro c hc
    by_cases hemp : (splitPath rest3).1.isEmpty
    · rw [if_pos hemp] at hc
      simp only [List.mem_singleton] at hc
      subst hc
      exact ⟨by decide, by decide⟩
    · rw [if_neg hemp] at hc
      exact ⟨hpathpred c hc, hwsall c (hmem2 c (hmem3 c (hpathsub c hc)))⟩
  · intro q hq c hc
    obtain ⟨qrest, hr4, hqe⟩ := splitQueryFragment_query_some _ q hq
    have hpred := List.mem_takeWhile_imp (hqe ▸ hc)
    refine ⟨by simpa using hpred, ?_⟩
    have hcq : c ∈ qrest := (List.takeWhile_sublist _).mem (hqe ▸ hc)
    have hcr4 : c ∈ (splitPath rest3).2 := by
      rw [hr4]
      simp [hcq]
    have hcr3 : c ∈ rest3 := (List.dropWhile_sublist _).mem hcr4
    exact hwsall c (hmem2 c (hmem3 c hcr3))

theorem takeWhile_eq_self_of_all (p : Char → Bool) (l : List Char)
    (h : ∀ c ∈ l, p c = true) : l.takeWhile p = l := by
  induction l with
  | nil => rfl
  | cons a t ih =>
    rw [List.takeWhile_cons, if_pos (h a (by simp))]
    rw [ih (fun c hc => h c (by simp [hc]))]

theorem dropWhile_eq_nil_of_all (p : Char → Bool) (l : List Char)
    (h : ∀ c ∈ l, p c = true) : l.dropWhile p = [] := by
  induction l with
  | nil => rfl
  | cons a t ih =>
    rw [List.dropWhile_cons, if_pos (h a (by simp))]
    exact ih (fun c hc => h c (by simp [hc]))

theorem splitQueryFragment_qmark (qrest : List Char) :
    splitQueryFragment ('?' :: qrest)
      = (some (qrest.takeWhile (fun d => !(d == '#'))),
         match qrest.dropWhile (fun d => !(d == '#')) with
         | [] => none
         | _ :: frest => some frest) := rfl

theorem serializeUrl_eq (u : UrlModel) (hf : u.fragment = none) :
    serializeUrl u = u.scheme ++ ':' :: '/' :: '/' ::
      (u.host ++ u.path ++ (match u.query with | none => [] | some q => '?' :: q)) := by
  unfold serializeUrl
  rw [hf]
  simp [List.append_assoc]

theorem serializeUrl_no_ws (u : UrlModel) (hcanon : UrlCanon u)
    (hs : u.scheme = "http".data ∨ u.scheme = "https".data) (hf : u.fragment = none) :
    ∀ c ∈ serializeUrl u, isJsSpace c = false := by
  obtain ⟨hh1, hh2, hp1, hp2, hp3, hq⟩ := hcanon
  intro c hc
  rw [serializeUrl_eq u hf] at hc
  simp only [List.mem_append, List.mem_cons] at hc
  rcases hc with hsc | h | h | h | hhp | hqp
  · have hschws : ∀ c ∈ u.scheme, isJsSpace c = false := by
      rcases hs with h | h <;> rw [h] <;> decide
    exact hschws c hsc
  · rw [h]; rfl
  · rw [h]; rfl
  · rw [h]; rfl
  · rcases hhp with hh | hp
    · exact (hh2 c hh).2.1
    · exact (hp3 c hp).2
  · cases hu : u.query with
    | none => rw [hu] at hqp; simp at hqp
    | some q =>
      rw [hu] at hqp
      simp only [List.mem_cons] at hqp
      rcases hqp with h | h
      · rw [h]; rfl
      · exact (hq q hu c h).2

theorem parseUrl_serializeUrl (u : UrlModel) (hcanon : UrlCanon u)
    (hs : u.scheme = "http".data ∨ u.scheme = "https".data) (hf : u.fragment = none) :
    parseUrl (serializeUrl u) = some u := by
  obtain ⟨hh1, hh2, hp1, hp2, hp3, hq⟩ := hcanon
  have hany : (serializeUrl u).any isJsSpace = false := by
    rw [List.any_eq_false]
    intro x hx
    simp [serializeUrl_no_ws u ⟨hh1, hh2, hp1, hp2, hp3, hq⟩ hs hf x hx]
  obtain ⟨c0, p', hpath⟩ : ∃ c0 p', u.path = c0 :: p' := by
    cases hup : u.path with
    | nil => exact absurd hup hp1
    | cons a t => exact ⟨a, t, rfl⟩
  have hc0 : c0 = '/' := by
    rw [hpath] at hp2
    simpa using hp2
  have hqpart : (match u.query with | none => [] | some q => '?' :: q) = [] ∨
      ∃ q, u.query = some q ∧
        (match u.query with | none => [] | some q => '?' :: q) = '?' :: q := by
    cases hu : u.query with
    | none => exact Or.inl rfl
    | some q => exact Or.inr ⟨q, rfl, rfl⟩
  set qpart := (match u.query with | none => [] | some q => '?' :: q) with hqp
  have hschemeChars : ∀ c ∈ u.scheme, isSchemeTailChar c = true := by
    rcases hs with h | h <;> rw [h] <;> decide
  have htake : (serializeUrl u).takeWhile isSchemeTailChar = u.scheme := by
    rw [serializeUrl_eq u hf, List.takeWhile_append_of_pos hschemeChars,
      List.takeWhile_cons, if_neg (by decide)]
    simp
  have hdrop : (serializeUrl u).dropWhile isSchemeTailChar
      = ':' :: '/' :: '/' :: (u.host ++ u.path ++ qpart) := by
    rw [serializeUrl_eq u hf, List.dropWhile_append_of_pos hschemeChars,
      List.dropWhile_cons, if_neg (by decide)]
  have hsplitScheme : splitScheme (serializeUrl u)
      = some (u.scheme, u.host ++ u.path ++ qpart) := by
    unfold splitScheme
    rw [htake, hdrop]
    rcases hs with h | h <;> rw [h] <;> simp
  have hhostpred : ∀ c ∈ u.host, (fun d => !isAuthorityEnd d) c = true := by
    intro c hc
    simp [(hh2 c hc).1]
  have hauthtake : (u.host ++ u.path ++ qpart).takeWhile (fun d => !isAuthorityEnd d)
      = u.host := by
    rw [List.append_assoc, List.takeWhile_append_of_pos hhostpred, hpath, hc0]
    rw [List.cons_append, List.takeWhile_cons, if_neg (by decide)]
    simp
  have hauthdrop : (u.host ++ u.path ++ qpart).dropWhile (fun d => !isAuthorityEnd d)
      = u.path ++ qpart := by
    rw [List.append_assoc, List.dropWhile_append_of_pos hhostpred, hpath, hc0]
    rw [List.cons_append, List.dropWhile_cons, if_neg (by decide)]
  have hhead : (u.path ++ qpart).head? = some '/' := by
    rw [hpath, hc0, List.cons_append]
    rfl
  have hsplitAuth : splitAuthority (u.host ++ u.path ++ qpart)
      = some (u.host, u.path ++ qpart) := by
    simp only [splitAuthority, hauthtake, hauthdrop, hhead]
    rw [if_neg (by simp [List.isEmpty_iff, hh1])]
    rw [if_neg (by decide)]
  have hpathpred : ∀ c ∈ u.path, (fun d => !(d == '?' || d == '#')) c = true := by
    intro c hc
    simp only [Bool.not_eq_true']
    exact (hp3 c hc).1
  have hpathtake : (u.path ++ qpart).takeWhile (fun d => !(d == '?' || d == '#'))
      = u.path := by
    rw [List.takeWhile_append_of_pos hpathpred]
    rcases hqpart with h | ⟨q, hu, h⟩ <;> rw [h]
    · simp
    · rw [List.takeWhile_cons, if_neg (by decide)]
      simp
  have hpathdrop : (u.path ++ qpart).dropWhile (fun d => !(d == '?' || d == '#'))
      = qpart := by
    rw [List.dropWhile_append_of_pos hpathpred]
    rcases hqpart with h | ⟨q, hu, h⟩ <;> rw [h]
    · rfl
    · rw [List.dropWhile_cons, if_neg (by decide)]
  have hsplitPath : splitPath (u.path ++ qpart) = (u.path, qpart) := by
    unfold splitPath
    rw [hpathtake, hpathdrop]
  have hsplitQF : splitQueryFragment qpart = (u.query, none) := by
    rcases hqpart with h | ⟨q, hu, h⟩ <;> rw [h]
    · cases hu : u.query with
      | none => rfl
      | some q =>
        simp only [hu] at hqp
        rw [h] at hqp
        simp at hqp
    · have hqall : ∀ c ∈ q, (fun d => !(d == '#')) c = true := by
        intro c hc
        simp only [Bool.not_eq_true']
        exact (hq q hu c hc).1
      rw [splitQueryFragment_qmark, takeWhile_eq_self_of_all _ q hqall,
        dropWhile_eq_nil_of_all _ q hqall, hu]
  have hmaphost : u.host.map lowerChar = u.host :=
    map_lower_fixpoints u.host (fun c hc => (hh2 c hc).2.2)
  have hmapscheme : u.scheme.map lowerChar = u.scheme := by
    rcases hs with h | h <;> rw [h] <;> decide
  unfold parseUrl
  rw [hany]
  simp only [Bool.false_eq_true, if_false]
  simp only [hsplitScheme]
  simp only [hsplitAuth]
  simp only [hsplitPath, hsplitQF]
  rw [if_neg (by simp [List.isEmpty_iff, hp1])]
  rw [hmaphost, hmapscheme]
  cases u with
  | mk sc ho pa quer fr =>
    simp only at hf ⊢
    rw [hf]

theorem hasExplicitScheme_serializeUrl (u : UrlModel)
    (hs : u.scheme = "http".data ∨ u.scheme = "https".data) (hf : u.fragment = none) :
    hasExplicitScheme (serializeUrl u) = true := by
  rw [serializeUrl_eq u hf]
  rcases hs with h | h <;> rw [h]
  · rw [show "http".data = ['h', 't', 't', 'p'] from rfl]
    simp only [List.cons_append, List.nil_append, hasExplicitScheme]
    rw [List.dropWhile_cons, if_pos (by decide), List.dropWhile_cons, if_pos (by decide),
      List.dropWhile_cons, if_pos (by decide), List.dropWhile_cons, if_neg (by decide)]
    simp
  · rw [show "https".data = ['h', 't', 't', 'p', 's'] from rfl]
    simp only [List.cons_append, List.nil_append, hasExplicitScheme]
    rw [List.dropWhile_cons, if_pos (by decide), List.dropWhile_cons, if_pos (by decide),
      List.dropWhile_cons, if_pos (by decide), List.dropWhile_cons, if_pos (by decide),
      List.dropWhile_cons, if_neg (by decide)]
    simp

theorem serializeUrl_isEmpty (u : UrlModel)
    (hs : u.scheme = "http".data ∨ u.scheme = "https".data) (hf : u.fragment = none) :
    (serializeUrl u).isEmpty = false := by
  rw [serializeUrl_eq u hf]
  rcases hs with h | h <;> rw [h] <;> rfl

theorem normalizeUrlInput_ok (raw out : List Char)
    (h : normalizeUrlInput raw = Except.ok out) :
    ∃ u, parseUrl (schemedInput raw) = some u ∧
      (u.scheme = "http".data ∨ u.scheme = "https".data) ∧
      u.host ≠ [] ∧ u.host.contains '.' = true ∧
      out = serializeUrl { u with fragment := none } := by
  simp only [normalizeUrlInput] at h
  split at h
  · exact absurd h (by simp)
  · split at h
    · exact absurd h (by simp)
    · rename_i u hu
      split at h
      · exact absurd h (by simp)
      · split at h
        · exact absurd h (by simp)
        · rename_i hsch hhost
          push_neg at hsch
          cases h
          have hhost2 : ¬u.host = [] ∧ '.' ∈ u.host := by simpa using hhost
          refine ⟨u, hu, ?_, hhost2.1, by simpa using hhost2.2, rfl⟩
          by_cases h1 : u.scheme = "https".data
          · exact Or.inr h1
          · exact Or.inl (hsch h1)

/-- Claim C9: normalization is idempotent on its own output, and the normalized
result is an absolute URL with an http or https scheme, no fragment, and a
hostname containing a dot. -/
theorem normalizeUrlInput_idempotent (raw out : List Char)
    (h : normalizeUrlInput raw = Except.ok out) :
    normalizeUrlInput out = Except.ok out ∧
    ∃ u, parseUrl out = some u ∧
      (u.scheme = "http".data ∨ u.scheme = "https".data) ∧
      u.fragment = none ∧ u.host.contains '.' = true := by
  obtain ⟨u, hp, hs, hne, hdot, hout⟩ := normalizeUrlInput_ok raw out h
  obtain ⟨hh1, hh2, hp1, hp2, hp3, hqq⟩ := parseUrl_canon _ _ hp
  have hcanon' : UrlCanon { u with fragment := none } := ⟨hh1, hh2, hp1, hp2, hp3, hqq⟩
  have hs' : ({ u with fragment := none } : UrlModel).scheme = "http".data ∨
      ({ u with fragment := none } : UrlModel).scheme = "https".data := hs
  have hrt : parseUrl (serializeUrl { u with fragment := none })
      = some { u with fragment := none } :=
    parseUrl_serializeUrl _ hcanon' hs' rfl
  have hws := serializeUrl_no_ws _ hcanon' hs' rfl
  have htrim : trimList (serializeUrl { u with fragment := none })
      = serializeUrl { u with fragment := none } := trimList_eq_self _ hws
  have hexp : hasExplicitScheme (serializeUrl { u with fragment := none }) = true :=
    hasExplicitScheme_serializeUrl _ hs' rfl
  have hschemed : schemedInput out = out := by
    rw [hout]
    simp only [schemedInput, htrim, hexp, if_true]
  have hpout : parseUrl (schemedInput out) = some { u with fragment := none } := by
    rw [hschemed, hout]
    exact hrt
  have hempty : (trimList out).isEmpty = false := by
    rw [hout, htrim]
    exact serializeUrl_isEmpty _ hs' rfl
  have hcond1 : ¬(({ u with fragment := none } : UrlModel).scheme ≠ "https".data ∧
      ({ u with fragment := none } : UrlModel).scheme ≠ "http".data) := by
    intro hcc
    rcases hs with hcs | hcs
    · exact hcc.2 hcs
    · exact hcc.1 hcs
  have hcond2 : (({ u with fragment := none } : UrlModel).host.isEmpty
      || !({ u with fragment := none } : UrlModel).host.contains '.') = false := by
    simp only [Bool.or_eq_false_iff]
    constructor
    · simpa [List.isEmpty_iff] using hne
    · simpa using hdot
  constructor
  · simp only [normalizeUrlInput, hpout, hempty, Bool.false_eq_true, if_false]
    rw [if_neg hcond1]
    simp only [hcond2, Bool.false_eq_true, if_false]
    rw [hout]
  · refine ⟨{ u with fragment := none }, ?_, hs', rfl, hdot⟩
    rw [hout]
    exact hrt

/-- Witness for claim C9: normalizing example.com gives https://example.com/ and
normalizing that again returns it unchanged. -/
theorem normalizeUrlInput_idempotent_witness :
    normalizeUrlInput "example.com".data = Except.ok "https://example.com/".data ∧
    normalizeUrlInput "https://example.com/".data
      = Except.ok "https://example.com/".data := by
  have h : normalizeUrlInput "example.com".data
      = Except.ok "https://example.com/".data := rfl
  exact ⟨h, (normalizeUrlInput_idempotent _ _ h).1⟩

theorem storeGet_storeSet_self (store : List (List Char × FlaggedSiteRecord))
    (k : List Char) (v : FlaggedSiteRecord) :
    storeGet (storeSet store k v) k = some v := by
  unfold storeGet storeSet
  rw [List.find?_cons_of_pos _ (by simp)]
  rfl

theorem buildFlaggedDoc_fields (dateParse : String → Option ℤ)
    (a : AnalysisResponse) (t : ℤ) (hst : List Char)
    (hh : safeHostname a.normalizedUrl = some hst) :
    ∃ d, buildFlaggedDoc dateParse a t = some d ∧ d.hostname = hst ∧
      d.firstObservedAtMs = t ∧ d.lastObservedAtMs = t ∧ d.timesObserved = 1 := by
  unfold buildFlaggedDoc
  rw [hh]
  exact ⟨_, rfl, rfl, rfl, rfl, rfl⟩

theorem observe_flagged_insert (dateParse : String → Option ℤ)
    (store : List (List Char × FlaggedSiteRecord)) (a : AnalysisResponse)
    (t : ℤ) (hst : List Char)
    (hf : isFlaggedAnalysis a = true)
    (hh : safeHostname a.normalizedUrl = some hst)
    (hmiss : storeGet store hst = none) :
    ∃ d, buildFlaggedDoc dateParse a t = some d ∧
      observeAnalysis dateParse store a t = storeSet store hst d ∧
      d.hostname = hst ∧ d.firstObservedAtMs = t ∧ d.lastObservedAtMs = t ∧
      d.timesObserved = 1 := by
  obtain ⟨d, hd, hdh, hdf, hdl, hdt⟩ := buildFlaggedDoc_fields dateParse a t hst hh
  refine ⟨d, hd, ?_, hdh, hdf, hdl, hdt⟩
  unfold observeAnalysis upsertFlaggedFromAnalysis
  simp only [hf, if_true, hd, hdh, hmiss]

theorem observe_flagged_update (dateParse : String → Option ℤ)
    (store : List (List Char × FlaggedSiteRecord)) (a : AnalysisResponse)
    (t : ℤ) (hst : List Char) (prev : FlaggedSiteRecord)
    (hf : isFlaggedAnalysis a = true)
    (hh : safeHostname a.normalizedUrl = some hst)
    (hprev : storeGet store hst = some prev) :
    ∃ d, buildFlaggedDoc dateParse a t = some d ∧
      observeAnalysis dateParse store a t
        = storeSet store hst
            { d with
              firstObservedAtMs := prev.firstObservedAtMs
              timesObserved := prev.timesObserved + 1 } ∧
      d.hostname = hst ∧ d.lastObservedAtMs = t := by
  obtain ⟨d, hd, hdh, hdf, hdl, hdt⟩ := buildFlaggedDoc_fields dateParse a t hst hh
  refine ⟨d, hd, ?_, hdh, hdl⟩
  unfold observeAnalysis upsertFlaggedFromAnalysis
  simp only [hf, if_true, hd, hdh, hprev]

/-- Claim C6: on a first flag-worthy observation of a hostname the record is
created with timesObserved one and firstObservedAtMs equal to the observation
time; every subsequent flag-worthy observation increments timesObserved,
advances lastObservedAtMs, replaces the mutable snapshot fields with the newly
built document, and preserves firstObservedAtMs — so two flag-worthy analyses
of one hostname yield timesObserved two. -/
theorem flagged_upsert_counts (dateParse : String → Option ℤ)
    (store : List (List Char × FlaggedSiteRecord)) (a1 a2 : AnalysisResponse)
    (t1 t2 : ℤ) (hst : List Char)
    (hf1 : isFlaggedAnalysis a1 = true) (hf2 : isFlaggedAnalysis a2 = true)
    (hh1 : safeHostname a1.normalizedUrl = some hst)
    (hh2 : safeHostname a2.normalizedUrl = some hst)
    (hmiss : storeGet store hst = none) :
    (∃ r1, storeGet (observeAnalysis dateParse store a1 t1) hst = some r1 ∧
      r1.timesObserved = 1 ∧ r1.firstObservedAtMs = t1 ∧ r1.lastObservedAtMs = t1) ∧
    (∀ store2 prev, storeGet store2 hst = some prev →
      ∃ r d, buildFlaggedDoc dateParse a2 t2 = some d ∧
        storeGet (observeAnalysis dateParse store2 a2 t2) hst = some r ∧
        r.timesObserved = prev.timesObserved + 1 ∧
        r.firstObservedAtMs = prev.firstObservedAtMs ∧
        r.lastObservedAtMs = t2 ∧
        r.normalizedUrl = d.normalizedUrl ∧ r.lastAnalysisAtMs = d.lastAnalysisAtMs ∧
        r.score = d.score ∧ r.status = d.status ∧ r.aiVerdict = d.aiVerdict ∧
        r.aiConfidence = d.aiConfidence ∧ r.summary = d.summary ∧
        r.issues = d.issues ∧ r.findings = d.findings ∧ r.evidence = d.evidence) ∧
    (∃ r2, storeGet (observeAnalysis dateParse
        (observeAnalysis dateParse store a1 t1) a2 t2) hst = some r2 ∧
      r2.timesObserved = 2 ∧ r2.firstObservedAtMs = t1 ∧ r2.lastObservedAtMs = t2) := by
  obtain ⟨d1, hd1, hstep1, hd1h, hd1f, hd1l, hd1t⟩ :=
    observe_flagged_insert dateParse store a1 t1 hst hf1 hh1 hmiss
  have hget1 : storeGet (observeAnalysis dateParse store a1 t1) hst = some d1 := by
    rw [hstep1]
    exact storeGet_storeSet_self store hst d1
  have hsub : ∀ store2 prev, storeGet store2 hst = some prev →
      ∃ r d, buildFlaggedDoc dateParse a2 t2 = some d ∧
        storeGet (observeAnalysis dateParse store2 a2 t2) hst = some r ∧
        r.timesObserved = prev.timesObserved + 1 ∧
        r.firstObservedAtMs = prev.firstObservedAtMs ∧
        r.lastObservedAtMs = t2 ∧
        r.normalizedUrl = d.normalizedUrl ∧ r.lastAnalysisAtMs = d.lastAnalysisAtMs ∧
        r.score = d.score ∧ r.status = d.status ∧ r.aiVerdict = d.aiVerdict ∧
        r.aiConfidence = d.aiConfidence ∧ r.summary = d.summary ∧
        r.issues = d.issues ∧ r.findings = d.findings ∧ r.evidence = d.evidence := by
    intro store2 prev hprev
    obtain ⟨d2, hd2, hstep2, hd2h, hd2l⟩ :=
      observe_flagged_update dateParse store2 a2 t2 hst prev hf2 hh2 hprev
    refine ⟨{ d2 with
        firstObservedAtMs := prev.firstObservedAtMs
        timesObserved := prev.timesObserved + 1 }, d2, hd2, ?_, rfl, rfl, hd2l, rfl, rfl,
      rfl, rfl, rfl, rfl, rfl, rfl, rfl, rfl⟩
    rw [hstep2]
    exact storeGet_storeSet_self store2 hst _
  refine ⟨⟨d1, hget1, hd1t, hd1f, hd1l⟩, hsub, ?_⟩
  obtain ⟨r2, d2, hd2, hget2, hrt, hrf, hrl, -⟩ :=
    hsub (observeAnalysis dateParse store a1 t1) d1 hget1
  exact ⟨r2, hget2, by rw [hrt, hd1t]; decide, by rw [hrf, hd1f], hrl⟩

/-- Witness for claim C6: observing the same flagged hostname twice from an
empty store yields a record with timesObserved two, the first observation time
preserved and the last observation time advanced. -/
theorem flagged_upsert_counts_witness :
    isFlaggedAnalysis demoFlagged1 = true ∧
    safeHostname demoFlagged1.normalizedUrl = some "bad-shop.example".data ∧
    storeGet [] "bad-shop.example".data = none ∧
    (∃ r2, storeGet (observeAnalysis dateParseNone
        (observeAnalysis dateParseNone [] demoFlagged1 100) demoFlagged2 200)
        "bad-shop.example".data = some r2 ∧
      r2.timesObserved = 2 ∧ r2.firstObservedAtMs = 100 ∧ r2.lastObservedAtMs = 200) := by
  refine ⟨by decide, by decide, rfl, ?_⟩
  exact (flagged_upsert_counts dateParseNone [] demoFlagged1 demoFlagged2 100 200
    "bad-shop.example".data (by decide) (by decide) (by decide) (by decide) rfl).2.2

/-- Claim C7: with capacity 4 and a refill rate of 0.1 tokens per second, five
checks arriving at the same instant from the same client and scope succeed for
checks one through four and reject check five, whose retryAfterSeconds is the
ceiling of the token shortfall over the refill rate floored at one, here 10,
which is at least 1. -/
theorem rate_limiter_burst :
    burstResults = [.ok 4 3, .ok 4 2, .ok 4 1, .ok 4 0, .rejected 4 0 10] ∧
    max 1 ⌈((1 : ℚ) - 0) / max 0.001 (0.1 : ℚ)⌉ = 10 ∧ (1 : ℤ) ≤ 10 := by
  have h1 : checkIpRateLimit [] burstKey 0 4 0.1
      = (.ok 4 3, [(burstKey, ⟨3, 0, 0⟩)]) := by
    norm_num [checkIpRateLimit, pruneIfNeeded, bucketGet, bucketSet]
  have h2 : checkIpRateLimit [(burstKey, ⟨3, 0, 0⟩)] burstKey 0 4 0.1
      = (.ok 4 2, [(burstKey, ⟨2, 0, 0⟩)]) := by
    norm_num [checkIpRateLimit, pruneIfNeeded, bucketGet, bucketSet, List.find?]
  have h3 : checkIpRateLimit [(burstKey, ⟨2, 0, 0⟩)] burstKey 0 4 0.1
      = (.ok 4 1, [(burstKey, ⟨1, 0, 0⟩)]) := by
    norm_num [checkIpRateLimit, pruneIfNeeded, bucketGet, bucketSet, List.find?]
  have h4 : checkIpRateLimit [(burstKey, ⟨1, 0, 0⟩)] burstKey 0 4 0.1
      = (.ok 4 0, [(burstKey, ⟨0, 0, 0⟩)]) := by
    norm_num [checkIpRateLimit, pruneIfNeeded, bucketGet, bucketSet, List.find?]
  have h5 : checkIpRateLimit [(burstKey, ⟨0, 0, 0⟩)] burstKey 0 4 0.1
      = (.rejected 4 0 10, [(burstKey, ⟨0, 0, 0⟩)]) := by
    norm_num [checkIpRateLimit, pruneIfNeeded, bucketGet, bucketSet, List.find?]
  refine ⟨?_, by norm_num, by norm_num⟩
  simp only [burstResults, h1, h2, h3, h4, h5]

/-- Claim C8: a network failure on any fetch the loop actually performs makes
the loop abort, and fetchHomepageSignals then returns the fetch-unavailable
result — htmlText, httpStatus, contentType and captured headers all null or
empty and the redirect chain empty — rather than throwing to its caller. -/
theorem fetchHomepageSignals_error_contained (fetches : ℕ → Except Unit HttpResponse)
    (resolveUrl : String → List Char → List Char) (url : List Char) :
    (∀ fuel step cur chain st ct hd, fetches step = Except.error () →
      fetchLoop fetches resolveUrl (fuel + 1) step cur chain st ct hd
        = Except.error ()) ∧
    (fetchLoop fetches resolveUrl 5 0 url [] none none [] = Except.error () →
      fetchHomepageSignals fetches resolveUrl url
        = ⟨url, none, none, none, [], []⟩) := by
  constructor
  · intro fuel step cur chain st ct hd herr
    unfold fetchLoop
    rw [herr]
  · intro h
    unfold fetchHomepageSignals
    rw [h]

/-- Witness for claim C8: with a first response that redirects and a second
fetch that fails, the loop aborts and the fetch-unavailable result is returned
with an empty redirect chain. -/
theorem fetchHomepageSignals_error_contained_witness :
    fetchLoop demoFetches demoResolve 5 0 "https://start.example/".data [] none none []
      = Except.error () ∧
    fetchHomepageSignals demoFetches demoResolve "https://start.example/".data
      = ⟨"https://start.example/".data, none, none, none, [], []⟩ := by
  have h : fetchLoop demoFetches demoResolve 5 0 "https://start.example/".data []
      none none [] = Except.error () := rfl
  exact ⟨h, (fetchHomepageSignals_error_contained demoFetches demoResolve
    "https://start.example/".data).2 h⟩

/-- Claim C10: unless the ENABLE_CACHE environment variable equals the string
true, the analyze handler neither reads from nor writes to the cache — even
with force false and a live cache entry — and always performs a fresh
analysis whose response carries cached false. -/
theorem cache_gated_on_env (env : AnalyzeEnv)
    (h : env.enableCacheEnv ≠ some "true") :
    CacheOp.cacheRead ∉ (analyzePOST env).2 ∧
    CacheOp.cacheWrite ∉ (analyzePOST env).2 ∧
    CacheOp.freshAnalysis ∈ (analyzePOST env).2 ∧
    (analyzePOST env).1.cached = false := by
  have he : enableCacheFlag env.enableCacheEnv = false := by
    simp only [enableCacheFlag, beq_eq_false_iff_ne, ne_eq]
    exact h
  unfold analyzePOST
  rw [he]
  simp only [Bool.and_false, Bool.false_eq_true, if_false]
  cases hag : env.agentResult <;> simp [analyzeFresh, hag]

/-- Witness for claim C10: with the flag unset, a live cache entry and force
false, no cache operation happens and the fresh result is returned uncached. -/
theorem cache_gated_on_env_witness :
    demoCacheEnv.enableCacheEnv ≠ some "true" ∧
    CacheOp.cacheRead ∉ (analyzePOST demoCacheEnv).2 ∧
    CacheOp.cacheWrite ∉ (analyzePOST demoCacheEnv).2 ∧
    CacheOp.freshAnalysis ∈ (analyzePOST demoCacheEnv).2 ∧
    (analyzePOST demoCacheEnv).1.cached = false := by
  refine ⟨by decide, ?_⟩
  exact cache_gated_on_env demoCacheEnv (by decide)

end TrustCheck
